import Mathlib

/-!
Verification of the tatu-lang tree-walking interpreter (danielspk/tatu-lang).

This file shallowly embeds the runtime value model (`pkg/runtime`), the
environment (`pkg/runtime` Environment), the evaluator
(`pkg/interpreter/interpreter.go`, the current version whose special forms
are `include/and/or/begin/var/set/if/while/lambda/recur/vector/map` and whose
operators are native functions), and the native functions the claims touch
(`pkg/core/builtins` `add`, `pkg/core/stdlib/vector.go` `vectorPush`,
`vectorGet`, and the `pkg/core/expects.go` helpers).

Modelling conventions:
- Go float64 numbers are modelled as rationals (`Rat`); no claim in scope
  depends on binary floating point rounding.
- Go mutable state (environments, vector backing arrays, maps) is modelled
  by an explicit `Store` threaded through evaluation.  Go slices keep their
  value semantics: a `Vector` value is a slice header (backing array id,
  length, capacity) and `append` either writes in place (len < cap) or
  reallocates, exactly as in Go.
- The Go `nil` interface value (e.g. the result of a `while` loop with zero
  iterations, where `lastValue` was never assigned) is the distinguished
  value `Value.goNil`; calling `.Type()` on it is a nil-pointer panic.
- Go runtime panics (index out of range, nil dereference, failed type
  assertion) are the error constructor `Err.goPanic`, distinct from errors
  the interpreter reports through `debug.Error` (`Err.reported`).  Source
  locations carried by `debug.Error` are elided; messages are kept.
- Evaluation is fuel-indexed (the Go interpreter can diverge); running out
  of fuel is the modelling artifact `Err.fuelOut`, never produced by runs
  given enough fuel.
-/

namespace Tatu

/-- AST nodes (pkg/ast/ast.go): atom kinds Number, String, Bool, Symbol, Nil
and the composite List kind.  Source locations are elided. -/
inductive Expr where
  | num (v : Rat)
  | str (s : String)
  | boolE (b : Bool)
  | nilE
  | sym (s : String)
  | list (es : List Expr)
deriving Repr

/-- Runtime value type tags (pkg/runtime, `ValueType` constants). -/
inductive ValueType where
  | numberT
  | stringT
  | boolT
  | nilT
  | vectorT
  | mapT
  | funcT
  | nativeFuncT
  | recurT
deriving Repr, DecidableEq

/-- String form of each type tag, as in the Go `ValueType` string constants
("NUMBER", "STRING", ...), used inside error messages. -/
def ValueType.name : ValueType → String
  | .numberT => "NUMBER"
  | .stringT => "STRING"
  | .boolT => "BOOL"
  | .nilT => "NIL"
  | .vectorT => "VECTOR"
  | .mapT => "MAP"
  | .funcT => "FUNC"
  | .nativeFuncT => "NATIVE_FUNC"
  | .recurT => "RECUR"

/-- Runtime values (pkg/runtime).  `vec` is a Go slice header over a backing
array held in the store; `mapV` and `func` likewise reference the store.
`nativeFn` carries the registry name of a native function.  `goNil` is the
Go `nil` interface value (never constructed by `runtime.New*`, but produced
e.g. by `evalWhile` with zero iterations). -/
inductive Value where
  | num (v : Rat)
  | str (s : String)
  | bool (b : Bool)
  | nil
  | vec (arr : Nat) (len : Nat) (cap : Nat)
  | mapV (id : Nat)
  | func (envId : Nat) (params : Expr) (body : Expr)
  | nativeFn (name : String)
  | recurV (args : List Value)
  | goNil
deriving Repr

/-- Go `value.Type()`, returning `none` exactly on the Go `nil` interface
value, where the Go call would panic with a nil dereference. -/
def typeTag : Value → Option ValueType
  | .num _ => some .numberT
  | .str _ => some .stringT
  | .bool _ => some .boolT
  | .nil => some .nilT
  | .vec _ _ _ => some .vectorT
  | .mapV _ => some .mapT
  | .func _ _ _ => some .funcT
  | .nativeFn _ => some .nativeFuncT
  | .recurV _ => some .recurT
  | .goNil => none

/-- One environment scope (pkg/runtime Environment): a record plus an
optional parent link.  The Go `map[string]Value` record is modelled as an
association list with unique keys maintained by `setk`. -/
structure Frame where
  record : List (String × Value)
  parent : Option Nat
deriving Repr

/-- Mutable interpreter state: the arena of environment frames (environment
references are indices), the vector backing arrays (Go slice semantics), and
the map heap (Go maps are reference values). -/
structure Store where
  envs : List Frame
  arrays : List (List Value)
  maps : List (List (String × Value))
deriving Repr

/-- Lookup in an association-list record (Go map read). -/
def getk : List (String × Value) → String → Option Value
  | [], _ => none
  | (k, w) :: rest, nm => if k = nm then some w else getk rest nm

/-- Insert or overwrite in an association-list record (Go map write). -/
def setk : List (String × Value) → String → Value → List (String × Value)
  | [], nm, v => [(nm, v)]
  | (k, w) :: rest, nm, v =>
      if k = nm then (k, v) :: rest else (k, w) :: setk rest nm v

/-- Overwrite frame `envId`'s record entry for `nm` with `v` in the store. -/
def storeSet (s : Store) (envId : Nat) (nm : String) (v : Value) : Store :=
  match s.envs[envId]? with
  | none => s
  | some f =>
      { s with envs := s.envs.set envId { f with record := setk f.record nm v } }

/-- Append a fresh frame (Go `runtime.NewEnvironment(record, parent)`);
returns its id. -/
def pushFrame (s : Store) (record : List (String × Value)) (parent : Option Nat) :
    Nat × Store :=
  (s.envs.length, { s with envs := s.envs ++ [⟨record, parent⟩] })

/-- Go `Environment.Define` (pkg/runtime Environment): error if the name is
already bound in the current (innermost) record, otherwise bind it there and
return the value.  The error message matches the Go `fmt.Errorf`. -/
def envDefine (s : Store) (envId : Nat) (nm : String) (v : Value) :
    Except String Value × Store :=
  match s.envs[envId]? with
  | none => (.error "invalid environment", s)
  | some f =>
      match getk f.record nm with
      | some _ => (.error ("symbol `" ++ nm ++ "` already defined"), s)
      | none => (.ok v, storeSet s envId nm v)

/-- Go `Environment.Assign`: if the current record binds the name, overwrite
it and return true; otherwise recurse into the parent; return false when the
chain is exhausted.  The Go recursion is modelled with a fuel bound (the
interpreter only builds finite acyclic chains; `envId + 1` fuel always
suffices since parents are created before children). -/
def envAssign : Nat → Store → Nat → String → Value → Bool × Store
  | 0, s, _, _, _ => (false, s)
  | fuel + 1, s, envId, nm, v =>
      match s.envs[envId]? with
      | none => (false, s)
      | some f =>
          if (getk f.record nm).isSome then (true, storeSet s envId nm v)
          else
            match f.parent with
            | some p => envAssign fuel s p nm v
            | none => (false, s)

/-- Go `Environment.Lookup`: nearest-scope lookup along the parent chain,
fuel-bounded like `envAssign`. -/
def envLookup : Nat → Store → Nat → String → Option Value
  | 0, _, _, _ => none
  | fuel + 1, s, envId, nm =>
      match s.envs[envId]? with
      | none => none
      | some f =>
          match getk f.record nm with
          | some v => some v
          | none =>
              match f.parent with
              | some p => envLookup fuel s p nm
              | none => none

/-- Pad a digit string on the left with zeros up to length `n`. -/
def padLeftZeros (s : String) (n : Nat) : String :=
  if s.length < n then String.mk (List.replicate (n - s.length) '0') ++ s else s

/-- Drop trailing zero digits. -/
def trimRightZeros (s : String) : String :=
  String.mk (s.data.reverse.dropWhile (fun c => c = '0')).reverse

/-- Fractional branch of Go `Number.String` (pkg/runtime): format with 10
decimal places (`%.10f`, rounding), re-parse, and print trimmed (`%g`),
dropping floating-point noise.  Modelled over rationals: round to 10
decimals and print with trailing zeros trimmed. -/
def fracRender (v : Rat) : String :=
  let sgn := if v < 0 then "-" else ""
  let n : Int := round (|v| * 10000000000)
  let ip := n / 10000000000
  let fp := (n % 10000000000).toNat
  let ds := trimRightZeros (padLeftZeros (toString fp) 10)
  if ds = "" then sgn ++ toString ip else sgn ++ toString ip ++ "." ++ ds

/-- Go `Number.String` (pkg/runtime): "0" for zero, no decimal point for
integral values (`%.0f`), otherwise the trimmed 10-decimal rendering. -/
def numberString (v : Rat) : String :=
  if v = 0 then "0"
  else if v.den = 1 then toString v.num
  else fracRender v

/-- Go `String()` canonical rendering of the atomic values (pkg/runtime:
Number.String, String.String, Bool.String, Nil.String).  Containers and
functions would need the heap to render; no modelled native renders them
(the `+` builtin only ever renders NUMBER and STRING operands). -/
def atomString : Value → String
  | .num v => numberString v
  | .str s => s
  | .bool b => if b then "true" else "false"
  | .nil => "<nil>"
  | _ => ""

/-- Go `core.ExpectArgs` (pkg/core/expects.go). -/
def expectArgsN (name : String) (expected : Nat) (args : List Value) :
    Except String Unit :=
  if args.length ≠ expected then
    .error ("`" ++ name ++ "` expects " ++ toString expected ++
      " argument(s), got " ++ toString args.length)
  else .ok ()

/-- Message helper used by the Expect* Go functions: the type name of a
value as it appears in their error messages (the Go code calls
`arg.Type()`, which would panic on a nil interface; modelled natives are
never handed one in scope of the claims, so `goNil` maps to a placeholder). -/
def tagName (v : Value) : String :=
  match typeTag v with
  | some t => t.name
  | none => "<nil>"

/-- Go `core.ExpectVector`: type-check and return the slice header. -/
def expectVector (name : String) (argIndex : Nat) (arg : Value) :
    Except String (Nat × Nat × Nat) :=
  match arg with
  | .vec a l c => .ok (a, l, c)
  | _ => .error ("`" ++ name ++ "` expects VECTOR at argument " ++
      toString (argIndex + 1) ++ ", got " ++ tagName arg)

/-- Fixed six-decimal rendering used by Go `%f` in error messages. -/
def fixed6Render (v : Rat) : String :=
  let sgn := if v < 0 then "-" else ""
  let n : Int := round (|v| * 1000000)
  sgn ++ toString (n / 1000000) ++ "." ++ padLeftZeros (toString (n % 1000000).toNat) 6

/-- Go `core.ExpectIntegerNumber`: NUMBER whose value survives the round
trip through `int`. -/
def expectIntegerNumber (name : String) (argIndex : Nat) (arg : Value) :
    Except String Rat :=
  match arg with
  | .num v =>
      if v.den = 1 then .ok v
      else .error ("`" ++ name ++ "` expects integer NUMBER at argument " ++
        toString (argIndex + 1) ++ ", got " ++ fixed6Render v)
  | _ => .error ("`" ++ name ++ "` expects NUMBER at argument " ++
      toString (argIndex + 1) ++ ", got " ++ tagName arg)

/-- Membership test for a value type among the two `+` accepts. -/
def isNumOrStr (v : Value) : Bool :=
  typeTag v = some .numberT || typeTag v = some .stringT

/-- First validation loop of the Go `add` builtin
(pkg/core/builtins, `add`): reject the first operand that is neither
NUMBER nor STRING, and report whether any STRING operand occurs. -/
def addscan : List Value → Except String Bool
  | [] => .ok false
  | a :: rest =>
      if isNumOrStr a then
        match addscan rest with
        | .error e => .error e
        | .ok hs => .ok (hs || typeTag a = some .stringT)
      else .error ("`+` invalid type " ++ tagName a)

/-- Numeric payload of a NUMBER value (Go `arg.(runtime.Number).Value`; only
reached after the type scan, so the default branch is dead code). -/
def numPayload : Value → Rat
  | .num v => v
  | _ => 0

/-- Go `add` (pkg/core/builtins): variadic `+`, at least two operands, each
NUMBER or STRING; if any operand is a STRING the result is the
concatenation of every operand's `String()` rendering in order
(`fmt.Sprintf("%v", arg)` calls the `String()` method), otherwise the
NUMBER sum. -/
def add (args : List Value) : Except String Value :=
  if args.length < 2 then
    .error ("`+` expected at least 2 arguments, got " ++ toString args.length)
  else
    match addscan args with
    | .error e => .error e
    | .ok hasString =>
        if hasString then
          .ok (.str (String.join (args.map atomString)))
        else
          .ok (.num (args.foldl (fun t a => t + numPayload a) 0))

/-- Read a backing-array element (in-bounds reads only; the filler default
mirrors the zero value padding of a Go allocation). -/
def arrGet (s : Store) (arr i : Nat) : Value :=
  (s.arrays.getD arr []).getD i .goNil

/-- Overwrite a backing-array element in place. -/
def arrSet (s : Store) (arr i : Nat) (v : Value) : Store :=
  { s with arrays := s.arrays.set arr ((s.arrays.getD arr []).set i v) }

/-- Allocate a fresh backing array; returns its id. -/
def arrAlloc (s : Store) (elems : List Value) : Nat × Store :=
  (s.arrays.length, { s with arrays := s.arrays ++ [elems] })

/-- First `len` elements of the backing array behind a slice header. -/
def sliceElems (s : Store) (arr len : Nat) : List Value :=
  (s.arrays.getD arr []).take len

/-- Go `append` on a slice of Values: write in place while the capacity
lasts, otherwise reallocate into a doubled backing array (the exact growth
factor is immaterial to the semantics; only the header length is ever
observed).  Returns the new slice header. -/
def goAppend (s : Store) (arr len cap : Nat) (v : Value) :
    (Nat × Nat × Nat) × Store :=
  if len < cap then ((arr, len + 1, cap), arrSet s arr len v)
  else
    let newCap := if cap = 0 then 1 else 2 * cap
    let elems := sliceElems s arr len ++ [v]
    let backing := elems ++ List.replicate (newCap - elems.length) Value.goNil
    let (newArr, s1) := arrAlloc s backing
    ((newArr, len + 1, newCap), s1)

/-- Go `validateVectorIndex` (pkg/core/stdlib/vector.go): expects a VECTOR
and an in-bounds integer NUMBER index. -/
def validateVectorIndex (name : String) (args : List Value) :
    Except String ((Nat × Nat × Nat) × Nat) :=
  match args.getD 0 .goNil, args.getD 1 .goNil with
  | a0, a1 =>
      match expectVector name 0 a0 with
      | .error e => .error e
      | .ok (arr, len, cap) =>
          match expectIntegerNumber name 1 a1 with
          | .error e => .error e
          | .ok v =>
              if v < 0 ∨ len ≤ v then
                .error ("`" ++ name ++ "` index out of bounds: " ++
                  toString v.num ++ " (vector length: " ++ toString len ++ ")")
              else .ok ((arr, len, cap), v.num.toNat)

/-- Go `vectorGet` (pkg/core/stdlib/vector.go): two arguments, validated
index, element read. -/
def vectorGet (args : List Value) (s : Store) : Except String (Value × Store) :=
  match expectArgsN "vec:get" 2 args with
  | .error e => .error e
  | .ok _ =>
      match validateVectorIndex "vec:get" args with
      | .error e => .error e
      | .ok ((arr, _, _), idx) => .ok (arrGet s arr idx, s)

/-- Go `vectorPush` (pkg/core/stdlib/vector.go): two arguments, VECTOR
first; appends to the local copy of the slice header and returns it
(`vector.Elements = append(vector.Elements, args[1]); return vector`). -/
def vectorPush (args : List Value) (s : Store) : Except String (Value × Store) :=
  match expectArgsN "vec:push" 2 args with
  | .error e => .error e
  | .ok _ =>
      match expectVector "vec:push" 0 (args.getD 0 .goNil) with
      | .error e => .error e
      | .ok (arr, len, cap) =>
          let ((arr1, len1, cap1), s1) := goAppend s arr len cap (args.getD 1 .goNil)
          .ok (.vec arr1 len1 cap1, s1)

/-- Names in the native-function registry consulted by `evalSymbol` after
the environment chain is exhausted (`NewInterpreter` Register* calls).  Only
the natives a claim exercises are modelled; the rest of the registry is
elided, which is observable only to programs that call them. -/
def nativesHas (name : String) : Bool :=
  name = "+" || name = "vec:push" || name = "vec:get"

/-- Dispatch a registered native function (the Go registry maps names to
closures; the modelled subset dispatches by name). -/
def applyNative (name : String) (args : List Value) (s : Store) :
    Except String (Value × Store) :=
  if name = "+" then
    match add args with
    | .error e => .error e
    | .ok v => .ok (v, s)
  else if name = "vec:push" then vectorPush args s
  else if name = "vec:get" then vectorGet args s
  else .error "native not modelled"

/-- Evaluation errors: `reported` is a `debug.Error` the interpreter creates
(or a native error it wraps; locations elided), `goPanic` is a Go runtime
panic (index out of range, nil dereference, failed type assertion), and
`fuelOut` is the fuel-exhaustion modelling artifact. -/
inductive Err where
  | reported (msg : String)
  | goPanic (msg : String)
  | fuelOut
deriving Repr, DecidableEq

/-- Result of evaluating one expression: an error, or a value with the
updated store. -/
abbrev EvalOut := Except Err (Value × Store)

/-- Go `evalSymbol` (interpreter.go): environment chain first, then the
native registry, else "unknown symbol".  The chain walk is bounded by
`envId + 1`, which suffices because every frame's parent is created before
it (parent index < own index). -/
def evalSymbolF (envId : Nat) (nm : String) (s : Store) : EvalOut :=
  match envLookup (envId + 1) s envId nm with
  | some v => .ok (v, s)
  | none =>
      if nativesHas nm then .ok (.nativeFn nm, s)
      else .error (.reported ("unknown symbol `" ++ nm ++ "`"))

/-- Parameter binding of the Go call trampoline (`evalCallFunction`):
`activationRecord[p.(*ast.SymbolExpr).Symbol] = currentArgs[pidx]` walked
positionally.  A non-symbol parameter fails the type assertion; running out
of arguments is an index-out-of-range panic — there is no bounds check. -/
def mkActivationRecord :
    List Expr → List Value → List (String × Value) →
    Except Err (List (String × Value))
  | [], _, acc => .ok acc
  | .sym nm :: ps, a :: rest, acc => mkActivationRecord ps rest (setk acc nm a)
  | .sym _ :: _, [], _ => .error (.goPanic "index out of range")
  | _ :: _, _, _ => .error (.goPanic "interface conversion")

set_option maxHeartbeats 2000000 in
mutual

/-- Go `eval` (interpreter.go): strict (non-tail) evaluation.  Delegates to
tail evaluation and rejects a transient RecurMarker
(`result != nil && result.Type() == runtime.RecurType`). -/
def eval : Nat → Expr → Option Nat → Store → EvalOut
  | 0, _, _, _ => .error .fuelOut
  | fuel + 1, e, env, s =>
      match evalInTailPosition fuel e env s with
      | .error er => .error er
      | .ok (r, s1) =>
          if typeTag r = some .recurT then
            .error (.reported "recur can only be used in tail position of a function")
          else .ok (r, s1)
termination_by structural fuel _ _ _ => fuel

/-- Go `evalInTailPosition`: a nil environment defaults to the global (id
0); atoms evaluate to themselves, symbols resolve, lists dispatch. -/
def evalInTailPosition : Nat → Expr → Option Nat → Store → EvalOut
  | 0, _, _, _ => .error .fuelOut
  | fuel + 1, e, env, s =>
      let envId := match env with | none => 0 | some i => i
      match e with
      | .num v => .ok (.num v, s)
      | .str v => .ok (.str v, s)
      | .boolE b => .ok (.bool b, s)
      | .nilE => .ok (.nil, s)
      | .sym nm => evalSymbolF envId nm s
      | .list es => evalList fuel es envId s
termination_by structural fuel _ _ _ => fuel

/-- Go `evalList`: empty list is Nil; a symbol head selects the special
form, anything else is a function call. -/
def evalList : Nat → List Expr → Nat → Store → EvalOut
  | 0, _, _, _ => .error .fuelOut
  | fuel + 1, es, envId, s =>
      match es with
      | [] => .ok (.nil, s)
      | e0 :: _ =>
          match e0 with
          | .sym nm =>
              if nm = "include" then .error (.reported "include not resolved")
              else if nm = "and" ∨ nm = "or" then evalLogical fuel es envId s
              else if nm = "begin" then evalBegin fuel es envId s
              else if nm = "var" then evalVar fuel es envId s
              else if nm = "set" then evalSet fuel es envId s
              else if nm = "if" then evalIf fuel es envId s
              else if nm = "while" then evalWhile fuel es envId s
              else if nm = "lambda" then evalLambda fuel es envId s
              else if nm = "recur" then evalRecur fuel es envId s
              else if nm = "vector" then evalVector fuel es envId s
              else if nm = "map" then evalMap fuel es envId s
              else evalCallFunction fuel es envId s
          | _ => evalCallFunction fuel es envId s
termination_by structural fuel _ _ _ => fuel

/-- Go `evalLogical`: reads the operator symbol from the head and runs the
operand loop. -/
def evalLogical : Nat → List Expr → Nat → Store → EvalOut
  | 0, _, _, _ => .error .fuelOut
  | fuel + 1, es, envId, s =>
      match es with
      | .sym op :: operands => logicalLoop fuel op operands envId s
      | _ => .error (.goPanic "interface conversion")
termination_by structural fuel _ _ _ => fuel

/-- Operand loop of Go `evalLogical`: strict-evaluate left to right, demand
BOOL, short-circuit (`and` at false, `or` at true), and finish with the
operator's identity element (`and` of no remaining operands is true). -/
def logicalLoop : Nat → String → List Expr → Nat → Store → EvalOut
  | 0, _, _, _, _ => .error .fuelOut
  | _ + 1, op, [], _, s => .ok (.bool (op = "and"), s)
  | fuel + 1, op, e :: rest, envId, s =>
      match eval fuel e (some envId) s with
      | .error er => .error er
      | .ok (r, s1) =>
          match r with
          | .goNil => .error (.goPanic "nil pointer dereference")
          | .bool b =>
              if op = "and" ∧ b = false then .ok (.bool false, s1)
              else if op = "or" ∧ b = true then .ok (.bool true, s1)
              else logicalLoop fuel op rest envId s1
          | v => .error (.reported ("invalid type " ++ tagName v ++ " for `" ++ op ++ "`"))
termination_by structural fuel _ _ _ _ => fuel

/-- Go `evalBegin`: a fresh child scope, all but the last expression strict,
the last in tail position.  A `begin` without body would panic at the Go
slice bounds (the analyzer rules it out). -/
def evalBegin : Nat → List Expr → Nat → Store → EvalOut
  | 0, _, _, _ => .error .fuelOut
  | fuel + 1, es, envId, s =>
      let (newId, s1) := pushFrame s [] (some envId)
      match es with
      | _ :: body :: rest => beginLoop fuel (body :: rest) newId s1
      | _ => .error (.goPanic "slice bounds out of range")
termination_by structural fuel _ _ _ => fuel

/-- Body loop of Go `evalBegin`: strict on every expression except the
final one, which is tail-evaluated. -/
def beginLoop : Nat → List Expr → Nat → Store → EvalOut
  | 0, _, _, _ => .error .fuelOut
  | fuel + 1, [e], envId, s => evalInTailPosition fuel e (some envId) s
  | fuel + 1, e :: rest, envId, s =>
      match eval fuel e (some envId) s with
      | .error er => .error er
      | .ok (_, s1) => beginLoop fuel rest envId s1
  | _ + 1, [], _, _ => .error (.goPanic "slice bounds out of range")
termination_by structural fuel _ _ _ => fuel

/-- Go `evalVar`: strict-evaluate the initializer, then `Define` in the
current scope (its error is returned as the evaluation error). -/
def evalVar : Nat → List Expr → Nat → Store → EvalOut
  | 0, _, _, _ => .error .fuelOut
  | fuel + 1, es, envId, s =>
      match es.get? 2 with
      | none => .error (.goPanic "index out of range")
      | some rhs =>
          match eval fuel rhs (some envId) s with
          | .error er => .error er
          | .ok (v, s1) =>
              match es.get? 1 with
              | some (Expr.sym nm) =>
                  match envDefine s1 envId nm v with
                  | (.error msg, _) => .error (.reported msg)
                  | (.ok value, s2) => .ok (value, s2)
              | some _ => .error (.goPanic "interface conversion")
              | none => .error (.goPanic "index out of range")
termination_by structural fuel _ _ _ => fuel

/-- Go `evalSet`: strict-evaluate, then `Assign` along the chain; error if
the name is bound nowhere. -/
def evalSet : Nat → List Expr → Nat → Store → EvalOut
  | 0, _, _, _ => .error .fuelOut
  | fuel + 1, es, envId, s =>
      match es.get? 2 with
      | none => .error (.goPanic "index out of range")
      | some rhs =>
          match eval fuel rhs (some envId) s with
          | .error er => .error er
          | .ok (v, s1) =>
              match es.get? 1 with
              | some (Expr.sym nm) =>
                  match envAssign (envId + 1) s1 envId nm v with
                  | (true, s2) => .ok (v, s2)
                  | (false, _) =>
                      .error (.reported ("goNilined variable `" ++ nm ++ "`"))
              | some _ => .error (.goPanic "interface conversion")
              | none => .error (.goPanic "index out of range")
termination_by structural fuel _ _ _ => fuel

/-- Go `evalIf`: strict BOOL condition; the chosen branch is evaluated in
tail position; a four-element form has an else branch, otherwise a false
condition yields Nil. -/
def evalIf : Nat → List Expr → Nat → Store → EvalOut
  | 0, _, _, _ => .error .fuelOut
  | fuel + 1, es, envId, s =>
      match es.get? 1, es.get? 2 with
      | some cond, some cons =>
          match eval fuel cond (some envId) s with
          | .error er => .error er
          | .ok (r, s1) =>
              match r with
              | .goNil => .error (.goPanic "nil pointer dereference")
              | .bool b =>
                  if b then evalInTailPosition fuel cons (some envId) s1
                  else if es.length = 4 then
                    match es.get? 3 with
                    | some alt => evalInTailPosition fuel alt (some envId) s1
                    | none => .error (.goPanic "index out of range")
                  else .ok (.nil, s1)
              | v => .error (.reported ("expected BOOL, found " ++ tagName v))
      | _, _ => .error (.goPanic "index out of range")
termination_by structural fuel _ _ _ => fuel

/-- Go `evalWhile`: delegates to the loop with `lastValue` starting as the
Go nil interface value. -/
def evalWhile : Nat → List Expr → Nat → Store → EvalOut
  | 0, _, _, _ => .error .fuelOut
  | fuel + 1, es, envId, s =>
      match es.get? 1, es.get? 2 with
      | some cond, some body => whileLoop fuel cond body envId .goNil s
      | _, _ => .error (.goPanic "index out of range")
termination_by structural fuel _ _ _ => fuel

/-- Loop of Go `evalWhile`: strict BOOL condition each iteration; strict
body while true; on a false condition return the last body value (still the
nil interface if no iteration ran). -/
def whileLoop : Nat → Expr → Expr → Nat → Value → Store → EvalOut
  | 0, _, _, _, _, _ => .error .fuelOut
  | fuel + 1, cond, body, envId, last, s =>
      match eval fuel cond (some envId) s with
      | .error er => .error er
      | .ok (r, s1) =>
          match r with
          | .goNil => .error (.goPanic "nil pointer dereference")
          | .bool b =>
              if b then
                match eval fuel body (some envId) s1 with
                | .error er => .error er
                | .ok (v, s2) => whileLoop fuel cond body envId v s2
              else .ok (last, s1)
          | v => .error (.reported ("expected BOOL, found " ++ tagName v))
termination_by structural fuel _ _ _ _ _ => fuel

/-- Go `evalLambda`: capture the current environment by reference together
with the parameter list and body nodes. -/
def evalLambda : Nat → List Expr → Nat → Store → EvalOut
  | 0, _, _, _ => .error .fuelOut
  | _ + 1, es, envId, s =>
      match es.get? 1, es.get? 2 with
      | some params, some body => .ok (.func envId params body, s)
      | _, _ => .error (.goPanic "index out of range")

/-- Go `evalRecur`: strict-evaluate every argument and wrap them in a
RecurBindings marker. -/
def evalRecur : Nat → List Expr → Nat → Store → EvalOut
  | 0, _, _, _ => .error .fuelOut
  | fuel + 1, es, envId, s =>
      match es with
      | _ :: argEs => recurArgsLoop fuel argEs envId [] s
      | [] => .error (.goPanic "index out of range")
termination_by structural fuel _ _ _ => fuel

/-- Argument loop of Go `evalRecur`. -/
def recurArgsLoop : Nat → List Expr → Nat → List Value → Store → EvalOut
  | 0, _, _, _, _ => .error .fuelOut
  | _ + 1, [], _, acc, s => .ok (.recurV acc, s)
  | fuel + 1, e :: rest, envId, acc, s =>
      match eval fuel e (some envId) s with
      | .error er => .error er
      | .ok (v, s1) => recurArgsLoop fuel rest envId (acc ++ [v]) s1
termination_by structural fuel _ _ _ _ => fuel

/-- Go `evalVector`: strict-evaluate every element, then a fresh Vector
over a freshly made backing slice (length = capacity = element count). -/
def evalVector : Nat → List Expr → Nat → Store → EvalOut
  | 0, _, _, _ => .error .fuelOut
  | fuel + 1, es, envId, s =>
      match es with
      | _ :: elemEs => vectorArgsLoop fuel elemEs envId [] s
      | [] => .error (.goPanic "index out of range")
termination_by structural fuel _ _ _ => fuel

/-- Element loop of Go `evalVector`, finishing with the allocation. -/
def vectorArgsLoop : Nat → List Expr → Nat → List Value → Store → EvalOut
  | 0, _, _, _, _ => .error .fuelOut
  | _ + 1, [], _, acc, s =>
      let (arr, s1) := arrAlloc s acc
      .ok (.vec arr acc.length acc.length, s1)
  | fuel + 1, e :: rest, envId, acc, s =>
      match eval fuel e (some envId) s with
      | .error er => .error er
      | .ok (v, s1) => vectorArgsLoop fuel rest envId (acc ++ [v]) s1
termination_by structural fuel _ _ _ _ => fuel

/-- Go `evalMap`: delegates to the key/value pair loop. -/
def evalMap : Nat → List Expr → Nat → Store → EvalOut
  | 0, _, _, _ => .error .fuelOut
  | fuel + 1, es, envId, s =>
      match es with
      | _ :: pairEs => mapPairsLoop fuel pairEs envId [] s
      | [] => .error (.goPanic "index out of range")
termination_by structural fuel _ _ _ => fuel

/-- Pair loop of Go `evalMap` (the current interpreter version): every key
expression is strict-evaluated (symbols included) and must be a STRING; the
value is strict-evaluated; writes go through the Go map, so a repeated key
overwrites (last write wins).  A trailing key without a value is the Go
index-out-of-range panic. -/
def mapPairsLoop : Nat → List Expr → Nat → List (String × Value) → Store → EvalOut
  | 0, _, _, _, _ => .error .fuelOut
  | _ + 1, [], _, acc, s =>
      .ok (.mapV s.maps.length, { s with maps := s.maps ++ [acc] })
  | _ + 1, [_], _, _, _ => .error (.goPanic "index out of range")
  | fuel + 1, kE :: vE :: rest, envId, acc, s =>
      match eval fuel kE (some envId) s with
      | .error er => .error er
      | .ok (k, s1) =>
          match k with
          | .goNil => .error (.goPanic "nil pointer dereference")
          | .str key =>
              match eval fuel vE (some envId) s1 with
              | .error er => .error er
              | .ok (v, s2) => mapPairsLoop fuel rest envId (setk acc key v) s2
          | v =>
              .error (.reported ("invalid map key type: expected string, got " ++
                tagName v))
termination_by structural fuel _ _ _ _ => fuel

/-- Go `evalCallFunction` up to the dispatch: strict-evaluate the callee,
demand a callable, strict-evaluate the arguments, then either invoke the
native (wrapping its error) or enter the trampoline. -/
def evalCallFunction : Nat → List Expr → Nat → Store → EvalOut
  | 0, _, _, _ => .error .fuelOut
  | fuel + 1, es, envId, s =>
      match es with
      | [] => .error (.goPanic "index out of range")
      | calleeE :: argEs =>
          match eval fuel calleeE (some envId) s with
          | .error er => .error er
          | .ok (fv, s1) =>
              match fv with
              | .goNil => .error (.goPanic "nil pointer dereference")
              | .nativeFn nm =>
                  match argsLoop fuel argEs envId [] s1 with
                  | .error er => .error er
                  | .ok (vargs, s2) =>
                      match applyNative nm vargs s2 with
                      | .error msg => .error (.reported msg)
                      | .ok (v, s3) => .ok (v, s3)
              | .func fEnv params body =>
                  match argsLoop fuel argEs envId [] s1 with
                  | .error er => .error er
                  | .ok (vargs, s2) => trampoline fuel fEnv params body vargs s2
              | _ => .error (.reported "expression is not a function")
termination_by structural fuel _ _ _ => fuel

/-- Go `evalFunctionArguments`: strict left-to-right evaluation of the
argument expressions. -/
def argsLoop : Nat → List Expr → Nat → List Value → Store →
    Except Err (List Value × Store)
  | 0, _, _, _, _ => .error .fuelOut
  | _ + 1, [], _, acc, s => .ok (acc, s)
  | fuel + 1, e :: rest, envId, acc, s =>
      match eval fuel e (some envId) s with
      | .error er => .error er
      | .ok (v, s1) => argsLoop fuel rest envId (acc ++ [v]) s1
termination_by structural fuel _ _ _ _ => fuel

/-- TCO loop of Go `evalCallFunction`: each iteration builds a fresh
activation environment (record = positional parameter bindings, parent =
the closure's captured environment) and tail-evaluates the body there; a
RecurBindings result rebinds the argument list and iterates, any other
value is the call's result. -/
def trampoline : Nat → Nat → Expr → Expr → List Value → Store → EvalOut
  | 0, _, _, _, _, _ => .error .fuelOut
  | fuel + 1, fEnv, params, body, currentArgs, s =>
      match params with
      | .list ps =>
          match mkActivationRecord ps currentArgs [] with
          | .error er => .error er
          | .ok record =>
              let (newId, s1) := pushFrame s record (some fEnv)
              match evalInTailPosition fuel body (some newId) s1 with
              | .error er => .error er
              | .ok (r, s2) =>
                  match r with
                  | .goNil => .error (.goPanic "nil pointer dereference")
                  | .recurV argsNew => trampoline fuel fEnv params body argsNew s2
                  | v => .ok (v, s2)
      | _ => .error (.goPanic "interface conversion")
termination_by structural fuel _ _ _ _ _ => fuel

end

/-- Go `EvalProgram` loop: evaluate each top-level expression strictly,
keeping the last value (`lastValue` starts as the nil interface). -/
def progLoop : Nat → List Expr → Option Nat → Value → Store → EvalOut
  | 0, _, _, _, _ => .error .fuelOut
  | _ + 1, [], _, last, s => .ok (last, s)
  | fuel + 1, e :: rest, env, _, s =>
      match eval fuel e env s with
      | .error er => .error er
      | .ok (v, s1) => progLoop fuel rest env v s1

/-- Interpreter start state: the global environment (id 0) and empty heaps
(`NewInterpreter` / `runtime.NewEnvironment(nil, nil)`). -/
def store0 : Store := ⟨[⟨[], none⟩], [], []⟩

/-- Run a program the way `Interpreter.EvalProgram` does from a fresh
interpreter (`Eval` is called with a nil environment). -/
def runProg (fuel : Nat) (prog : List Expr) : EvalOut :=
  progLoop fuel prog none .goNil store0

/-- Value component of a program run (drops the final store). -/
def runResult (fuel : Nat) (prog : List Expr) : Except Err Value :=
  (runProg fuel prog).map Prod.fst

/-- Reference characterization written from the spec's words for the
environment claims: walk the parent links from the innermost scope and
return the id of the first (nearest) scope whose record binds the name,
or nothing when the chain is exhausted.  Compared against `envAssign` and
`envLookup`, which are translated from the Go code. -/
def chainFindSpec : Nat → Store → Nat → String → Option Nat
  | 0, _, _, _ => none
  | fuel + 1, s, envId, nm =>
      match s.envs[envId]? with
      | none => none
      | some f =>
          if (getk f.record nm).isSome then some envId
          else
            match f.parent with
            | some p => chainFindSpec fuel s p nm
            | none => none

/-- Program `(begin (var x 1) (begin (var x 2) x))`. -/
def progShadowing : List Expr :=
  [.list [.sym "begin",
    .list [.sym "var", .sym "x", .num 1],
    .list [.sym "begin", .list [.sym "var", .sym "x", .num 2], .sym "x"]]]

/-- Store after running `progShadowing`: the global frame, the outer
`begin` frame still binding x to 1, and the inner frame binding x to 2. -/
def shadowFinal : Store :=
  ⟨[⟨[], none⟩, ⟨[("x", .num 1)], some 0⟩, ⟨[("x", .num 2)], some 1⟩], [], []⟩

/-- Program `((lambda (x y) x) 1)`: a direct call with fewer arguments
than parameters. -/
def progArityDirect : List Expr :=
  [.list [.list [.sym "lambda", .list [.sym "x", .sym "y"], .sym "x"], .num 1]]

/-- Program `((lambda (x) (recur)) 1)`: a recur rebinding with fewer
arguments than the enclosing function's parameters. -/
def progArityRecur : List Expr :=
  [.list [.list [.sym "lambda", .list [.sym "x"], .list [.sym "recur"]], .num 1]]

/-- Program `(while false 0)`: zero loop iterations. -/
def progWhileZero : List Expr :=
  [.list [.sym "while", .boolE false, .num 0]]

/-- Program `(var v (vector 1 2 3)) (vec:push v 4) (vec:get v 3)`:
the spec's aliasing scenario read through the original binding. -/
def progVecAlias : List Expr :=
  [.list [.sym "var", .sym "v", .list [.sym "vector", .num 1, .num 2, .num 3]],
   .list [.sym "vec:push", .sym "v", .num 4],
   .list [.sym "vec:get", .sym "v", .num 3]]

/-- Program `(var v (vector 1 2 3)) (var w (vec:push v 4)) (vec:get w 3)`:
the appended element read through the reference `vec:push` returns. -/
def progVecRebind : List Expr :=
  [.list [.sym "var", .sym "v", .list [.sym "vector", .num 1, .num 2, .num 3]],
   .list [.sym "var", .sym "w", .list [.sym "vec:push", .sym "v", .num 4]],
   .list [.sym "vec:get", .sym "w", .num 3]]

/-- Program `(begin (var k "a") (map k 2))`: a bare symbol in map-key
position while a variable of that name holds a string. -/
def progMapSymKey : List Expr :=
  [.list [.sym "begin",
    .list [.sym "var", .sym "k", .str "a"],
    .list [.sym "map", .sym "k", .num 2]]]

/-- Program `(+ "a" 1 "b")`. -/
def progPlusMixed : List Expr :=
  [.list [.sym "+", .str "a", .num 1, .str "b"]]

/-- Program `(recur)` at top level. -/
def progRecurTop : List Expr :=
  [.list [.sym "recur"]]

/-- Store after running `progMapSymKey`: the begin frame binds k to "a" and
the single allocated map carries the evaluated key "a". -/
def mapSymFinal : Store :=
  ⟨[⟨[], none⟩, ⟨[("k", .str "a")], some 0⟩], [], [[("a", .num 2)]]⟩

/-- Store after running `progVecRebind`: the global frame binds v to the
original slice header (backing array 0, length 3) and w to the reallocated
one (backing array 1, length 4, capacity 6). -/
def vecRebindFinal : Store :=
  ⟨[⟨[("v", .vec 0 3 3), ("w", .vec 1 4 6)], none⟩],
   [[.num 1, .num 2, .num 3], [.num 1, .num 2, .num 3, .num 4, .goNil, .goNil]], []⟩

/-- Two-frame store used to witness the Environment operation claims. -/
def wStore : Store :=
  ⟨[⟨[("y", .num 9)], none⟩, ⟨[("x", .num 1)], some 0⟩], [], []⟩

/-- C5: evaluating `(begin (var x 1) (begin (var x 2) x))` yields 2, and the
outer begin scope (frame 1) still binds x to 1 afterwards while only the
inner scope (frame 2) holds the shadowing binding x = 2. -/
theorem begin_shadowing_scopes :
    runProg 40 progShadowing = .ok (.num 2, shadowFinal) ∧
    shadowFinal.envs.get? 1 = some ⟨[("x", .num 1)], some 0⟩ ∧
    shadowFinal.envs.get? 2 = some ⟨[("x", .num 2)], some 1⟩ :=
  ⟨rfl, rfl, rfl⟩

/-- C2: calling a two-parameter function with one argument, and rebinding a
one-parameter function through a zero-argument `recur`, both die with the Go
index-out-of-range panic from the unchecked positional parameter binding —
not with a reported arity-mismatch error. -/
theorem arity_mismatch_out_of_bounds :
    runResult 40 progArityDirect = .error (.goPanic "index out of range") ∧
    runResult 40 progArityRecur = .error (.goPanic "index out of range") :=
  ⟨rfl, rfl⟩

/-- C3: strict evaluation never returns a RecurMarker — a successful strict
evaluation's value is never of RECUR type, and whenever tail evaluation
yields a RecurMarker the strict wrapper instead reports that recur can only
be used in tail position of a function. -/
theorem strict_eval_rejects_recur :
    (∀ fuel e env s v s', eval (fuel + 1) e env s = .ok (v, s') →
      typeTag v ≠ some .recurT) ∧
    (∀ fuel e env s a s', evalInTailPosition fuel e env s = .ok (.recurV a, s') →
      eval (fuel + 1) e env s =
        .error (.reported "recur can only be used in tail position of a function")) := by
  constructor
  · intro fuel e env s v s' h hr
    cases ht : evalInTailPosition fuel e env s with
    | error er => simp [eval, ht] at h
    | ok rs =>
      obtain ⟨r, s1⟩ := rs
      rw [eval, ht] at h
      by_cases hc : typeTag r = some .recurT
      · simp [hc] at h
      · simp [hc] at h
        exact hc (h.1 ▸ hr)
  · intro fuel e env s a s' h
    rw [eval, h]
    simp [typeTag]

/-- Witness for C3: the tail evaluation of a bare `(recur)` yields the
marker, its strict evaluation yields the reported error, and a top-level
`(recur)` program reports the same error. -/
theorem strict_eval_rejects_recur_witness :
    evalInTailPosition 5 (.list [Expr.sym "recur"]) none store0 = .ok (.recurV [], store0) ∧
    eval 6 (.list [Expr.sym "recur"]) none store0 =
      .error (.reported "recur can only be used in tail position of a function") ∧
    runResult 10 progRecurTop =
      .error (.reported "recur can only be used in tail position of a function") :=
  ⟨rfl, strict_eval_rejects_recur.2 5 (.list [Expr.sym "recur"]) none store0 [] store0 rfl, rfl⟩

/-- Counterexample to C8 as stated: `(while false 0)` runs zero iterations
and returns the Go nil interface value, which is not the language Nil. -/
theorem while_zero_iterations_counterexample :
    runResult 40 progWhileZero = .ok .goNil ∧ Value.goNil ≠ Value.nil :=
  ⟨rfl, fun h => Value.noConfusion h⟩

/-- Counterexample to C7 as stated: after `(var v (vector 1 2 3))` and
`(vec:push v 4)`, evaluating `(vec:get v 3)` through the original binding
reports an index-out-of-bounds error instead of yielding 4. -/
theorem vec_push_alias_counterexample :
    runResult 60 progVecAlias =
      .error (.reported "`vec:get` index out of bounds: 3 (vector length: 3)") ∧
    runResult 60 progVecAlias ≠ .ok (.num 4) :=
  ⟨rfl, fun h => nomatch h⟩

/-- Counterexample to C9 as stated: in `(begin (var k "a") (map k 2))` the
bare symbol key k is evaluated as a variable — the resulting map binds the
string "a", and no entry for the literal name "k" exists. -/
theorem map_symbol_key_counterexample :
    runProg 60 progMapSymKey = .ok (.mapV 0, mapSymFinal) ∧
    mapSymFinal.maps.getD 0 [] = [("a", .num 2)] ∧
    getk (mapSymFinal.maps.getD 0 []) "k" = none :=
  ⟨rfl, rfl, rfl⟩

/-- Helper: `Assign` walks the parent chain exactly to the nearest binding
frame found by the spec-side chain walk, mutates there and answers true, or
answers false with the store untouched. -/
theorem envAssign_eq_chainFind (fuel : Nat) : ∀ s envId nm v,
    envAssign fuel s envId nm v =
      match chainFindSpec fuel s envId nm with
      | some j => (true, storeSet s j nm v)
      | none => (false, s) := by
  induction fuel with
  | zero => intro s envId nm v; rfl
  | succ n ih =>
    intro s envId nm v
    rw [envAssign, chainFindSpec]
    cases h : s.envs[envId]? with
    | none => rfl
    | some f =>
      by_cases hb : (getk f.record nm).isSome
      · simp [hb]
      · simp [hb]
        cases f.parent with
        | some p => exact ih s p nm v
        | none => rfl

/-- Helper: `Lookup` returns exactly the record entry of the frame the
spec-side chain walk finds, and nothing when the walk finds none. -/
theorem envLookup_eq_chainFind (fuel : Nat) : ∀ s envId nm,
    envLookup fuel s envId nm =
      (chainFindSpec fuel s envId nm).bind fun j =>
        (s.envs[j]?).bind fun f => getk f.record nm := by
  induction fuel with
  | zero => intro s envId nm; rfl
  | succ n ih =>
    intro s envId nm
    rw [envLookup, chainFindSpec]
    cases h : s.envs[envId]? with
    | none => rfl
    | some f =>
      cases hb : getk f.record nm with
      | some w => simp [hb, h]
      | none =>
        simp [hb]
        cases f.parent with
        | some p => exact ih s p nm
        | none => rfl

/-- C4: the Environment operations.  `Define` fails exactly when the name is
bound in the innermost record (store untouched) and otherwise binds it there
and returns the value; `Assign` mutates the nearest frame along the parent
chain that binds the name and answers true, or answers false leaving the
store unchanged; `Lookup` reads the nearest binding and is not-found when
the chain is exhausted.  No operation creates a binding silently. -/
theorem environment_ops_spec :
    (∀ s envId nm v f, s.envs[envId]? = some f →
      (getk f.record nm = none →
        envDefine s envId nm v = (.ok v, storeSet s envId nm v)) ∧
      (∀ w, getk f.record nm = some w →
        envDefine s envId nm v =
          (.error ("symbol `" ++ nm ++ "` already defined"), s))) ∧
    (∀ fuel s envId nm v,
      envAssign fuel s envId nm v =
        match chainFindSpec fuel s envId nm with
        | some j => (true, storeSet s j nm v)
        | none => (false, s)) ∧
    (∀ fuel s envId nm,
      envLookup fuel s envId nm =
        (chainFindSpec fuel s envId nm).bind fun j =>
          (s.envs[j]?).bind fun f => getk f.record nm) := by
  refine ⟨?_, envAssign_eq_chainFind, envLookup_eq_chainFind⟩
  intro s envId nm v f hf
  constructor
  · intro habs
    simp [envDefine, hf, habs]
  · intro w hw
    simp [envDefine, hf, hw]

/-- Witness for C4 on a concrete two-frame store: fresh `Define` succeeds,
duplicate `Define` fails, `Assign` mutates the parent frame holding the
name and answers true, `Assign` of an unbound name answers false leaving the
store unchanged, and `Lookup` finds the parent binding. -/
theorem environment_ops_spec_witness :
    envDefine wStore 1 "z" (.num 5) = (.ok (.num 5), storeSet wStore 1 "z" (.num 5)) ∧
    envDefine wStore 1 "x" (.num 5) = (.error "symbol `x` already defined", wStore) ∧
    envAssign 2 wStore 1 "y" (.num 7) = (true, storeSet wStore 0 "y" (.num 7)) ∧
    envAssign 2 wStore 1 "q" (.num 7) = (false, wStore) ∧
    envLookup 2 wStore 1 "y" = some (.num 9) :=
  ⟨(environment_ops_spec.1 wStore 1 "z" (.num 5) ⟨[("x", .num 1)], some 0⟩ rfl).1 rfl,
   (environment_ops_spec.1 wStore 1 "x" (.num 5) ⟨[("x", .num 1)], some 0⟩ rfl).2 (.num 1) rfl,
   (environment_ops_spec.2.1 2 wStore 1 "y" (.num 7)).trans rfl,
   (environment_ops_spec.2.1 2 wStore 1 "q" (.num 7)).trans rfl,
   (environment_ops_spec.2.2 2 wStore 1 "y").trans rfl⟩

/-- C8 (amended): the `while` form enters its loop with the Go nil interface
as the initial last value; each iteration strict-evaluates the condition,
which must be a BOOL (reported type error otherwise, nil-interface condition
panics), runs the body strictly while true carrying the body's value, and a
false condition returns the carried value — still the Go nil interface, not
the language Nil, when no iteration ran. -/
theorem while_loop_spec :
    (∀ fuel cond body envId s,
      evalWhile (fuel + 1) [.sym "while", cond, body] envId s =
        whileLoop fuel cond body envId .goNil s) ∧
    (∀ fuel cond body envId last s s',
      eval fuel cond (some envId) s = .ok (.bool false, s') →
      whileLoop (fuel + 1) cond body envId last s = .ok (last, s')) ∧
    (∀ fuel cond body envId last s s1 v s2,
      eval fuel cond (some envId) s = .ok (.bool true, s1) →
      eval fuel body (some envId) s1 = .ok (v, s2) →
      whileLoop (fuel + 1) cond body envId last s =
        whileLoop fuel cond body envId v s2) ∧
    (∀ fuel cond body envId last s v s',
      eval fuel cond (some envId) s = .ok (v, s') →
      typeTag v ≠ some .boolT → v ≠ .goNil →
      whileLoop (fuel + 1) cond body envId last s =
        .error (.reported ("expected BOOL, found " ++ tagName v))) := by
  refine ⟨fun fuel cond body envId s => rfl, ?_, ?_, ?_⟩
  · intro fuel cond body envId last s s' h
    rw [whileLoop, h]
    simp
  · intro fuel cond body envId last s s1 v s2 hc hb
    rw [whileLoop, hc]
    simp [hb]
  · intro fuel cond body envId last s v s' h hv hu
    rw [whileLoop, h]
    cases v <;> simp_all [typeTag, tagName]

/-- Witness for C8: a false condition returns the carried value (the Go nil
interface on loop entry, the number 7 when carried), a true condition runs
the body and carries its value, a numeric condition is the reported BOOL
type error, and a complete program with one iteration returns the last body
value. -/
theorem while_loop_spec_witness :
    evalWhile 7 [.sym "while", .boolE false, .num 0] 0 store0 =
      whileLoop 6 (.boolE false) (.num 0) 0 .goNil store0 ∧
    whileLoop 6 (.boolE false) (.num 0) 0 (.num 7) store0 = .ok (.num 7, store0) ∧
    whileLoop 6 (.boolE true) (.num 1) 0 .goNil store0 =
      whileLoop 5 (.boolE true) (.num 1) 0 (.num 1) store0 ∧
    whileLoop 6 (.num 3) (.num 1) 0 .goNil store0 =
      .error (.reported "expected BOOL, found NUMBER") ∧
    runResult 60 [.list [.sym "begin",
      .list [.sym "var", .sym "i", .boolE true],
      .list [.sym "while", .sym "i", .list [.sym "set", .sym "i", .boolE false]]]] =
      .ok (.bool false) :=
  ⟨while_loop_spec.1 6 (.boolE false) (.num 0) 0 store0,
   while_loop_spec.2.1 5 (.boolE false) (.num 0) 0 (.num 7) store0 store0 rfl,
   while_loop_spec.2.2.1 5 (.boolE true) (.num 1) 0 .goNil store0 store0 (.num 1) store0 rfl rfl,
   (while_loop_spec.2.2.2 5 (.num 3) (.num 1) 0 .goNil store0 (.num 3) store0 rfl
     (by simp [typeTag]) (fun h => Value.noConfusion h)).trans rfl,
   rfl⟩

/-- C6: the `and`/`or` operand loop evaluates operands strictly left to
right, demands BOOL (reported type error otherwise), short-circuits — `and`
returns false at the first false operand and `or` returns true at the first
true operand, leaving the remaining operand expressions unevaluated (the
result holds for every tail) — and when no operand stops the loop it
finishes with the logical identity: true for `and`, false for `or`. -/
theorem and_or_short_circuit :
    (∀ fuel e rest envId s s',
      eval fuel e (some envId) s = .ok (.bool false, s') →
      logicalLoop (fuel + 1) "and" (e :: rest) envId s = .ok (.bool false, s')) ∧
    (∀ fuel e rest envId s s',
      eval fuel e (some envId) s = .ok (.bool true, s') →
      logicalLoop (fuel + 1) "or" (e :: rest) envId s = .ok (.bool true, s')) ∧
    (∀ fuel e rest envId s s',
      eval fuel e (some envId) s = .ok (.bool true, s') →
      logicalLoop (fuel + 1) "and" (e :: rest) envId s =
        logicalLoop fuel "and" rest envId s') ∧
    (∀ fuel e rest envId s s',
      eval fuel e (some envId) s = .ok (.bool false, s') →
      logicalLoop (fuel + 1) "or" (e :: rest) envId s =
        logicalLoop fuel "or" rest envId s') ∧
    (∀ fuel op e rest envId s v s',
      eval fuel e (some envId) s = .ok (v, s') →
      typeTag v ≠ some .boolT → v ≠ .goNil →
      logicalLoop (fuel + 1) op (e :: rest) envId s =
        .error (.reported ("invalid type " ++ tagName v ++ " for `" ++ op ++ "`"))) ∧
    (∀ fuel envId s,
      logicalLoop (fuel + 1) "and" ([] : List Expr) envId s = .ok (.bool true, s) ∧
      logicalLoop (fuel + 1) "or" ([] : List Expr) envId s = .ok (.bool false, s)) ∧
    (∀ fuel op operands envId s,
      evalLogical (fuel + 1) (.sym op :: operands) envId s =
        logicalLoop fuel op operands envId s) := by
  refine ⟨?_, ?_, ?_, ?_, ?_, ?_, fun fuel op operands envId s => rfl⟩
  · intro fuel e rest envId s s' h
    rw [logicalLoop, h]
    simp
  · intro fuel e rest envId s s' h
    rw [logicalLoop, h]
    simp
  · intro fuel e rest envId s s' h
    rw [logicalLoop, h]
    simp
  · intro fuel e rest envId s s' h
    rw [logicalLoop, h]
    simp
  · intro fuel op e rest envId s v s' h hv hu
    rw [logicalLoop, h]
    cases v <;> simp_all [typeTag, tagName]
  · intro fuel envId s
    exact ⟨rfl, rfl⟩

/-- Witness for C6: `and` stops at a literal false even when the remaining
operand is an unbound symbol (so it was never evaluated), `or` stops at a
literal true likewise, a numeric operand is the reported type error, and
complete programs exercise the identities: all-true `and` is true, all-false
`or` is false, and an `and` whose second operand would error if evaluated
returns false. -/
theorem and_or_short_circuit_witness :
    logicalLoop 6 "and" [.boolE false, .sym "boom"] 0 store0 = .ok (.bool false, store0) ∧
    logicalLoop 6 "or" [.boolE true, .sym "boom"] 0 store0 = .ok (.bool true, store0) ∧
    logicalLoop 6 "and" [.num 3] 0 store0 =
      .error (.reported "invalid type NUMBER for `and`") ∧
    runResult 30 [.list [.sym "and", .boolE true, .boolE true]] = .ok (.bool true) ∧
    runResult 30 [.list [.sym "or", .boolE false, .boolE false]] = .ok (.bool false) ∧
    runResult 30 [.list [.sym "and", .boolE false,
      .list [.sym "vec:get", .list [.sym "vector"], .num 5]]] = .ok (.bool false) :=
  ⟨and_or_short_circuit.1 5 (.boolE false) [.sym "boom"] 0 store0 store0 rfl,
   and_or_short_circuit.2.1 5 (.boolE true) [.sym "boom"] 0 store0 store0 rfl,
   (and_or_short_circuit.2.2.2.2.1 5 "and" (.num 3) [] 0 store0 (.num 3) store0 rfl
     (by simp [typeTag]) (fun h => Value.noConfusion h)).trans rfl,
   rfl, rfl, rfl⟩

/-- C9 (amended): the `map` form's pair loop strict-evaluates every key
expression — bare symbols included, resolved as variables — and demands a
STRING key (reported type error otherwise), strict-evaluates each value,
accumulates writes where a repeated key overwrites (last write wins), and
finishes by allocating a fresh Map. -/
theorem map_form_spec :
    (∀ fuel envId acc s,
      mapPairsLoop (fuel + 1) ([] : List Expr) envId acc s =
        .ok (.mapV s.maps.length, { s with maps := s.maps ++ [acc] })) ∧
    (∀ fuel kE vE rest envId acc s key s1 v s2,
      eval fuel kE (some envId) s = .ok (.str key, s1) →
      eval fuel vE (some envId) s1 = .ok (v, s2) →
      mapPairsLoop (fuel + 1) (kE :: vE :: rest) envId acc s =
        mapPairsLoop fuel rest envId (setk acc key v) s2) ∧
    (∀ fuel kE vE rest envId acc s k s1,
      eval fuel kE (some envId) s = .ok (k, s1) →
      typeTag k ≠ some .stringT → k ≠ .goNil →
      mapPairsLoop (fuel + 1) (kE :: vE :: rest) envId acc s =
        .error (.reported ("invalid map key type: expected string, got " ++ tagName k))) ∧
    (∀ acc key v, getk (setk acc key v) key = some v) ∧
    (∀ fuel headE pairEs envId s,
      evalMap (fuel + 1) (headE :: pairEs) envId s =
        mapPairsLoop fuel pairEs envId [] s) := by
  refine ⟨fun fuel envId acc s => rfl, ?_, ?_, ?_, fun fuel headE pairEs envId s => rfl⟩
  · intro fuel kE vE rest envId acc s key s1 v s2 hk hv
    rw [mapPairsLoop, hk]
    simp [hv]
  · intro fuel kE vE rest envId acc s k s1 hk hs hu
    rw [mapPairsLoop, hk]
    cases k <;> simp_all [typeTag, tagName]
  · intro acc key v
    induction acc with
    | nil => simp [setk, getk]
    | cons hd tl ih =>
      obtain ⟨k, w⟩ := hd
      by_cases hk : k = key
      · simp [setk, getk, hk]
      · simp [setk, getk, hk, ih]

/-- Witness for C9: a string key and its value advance the loop with the
binding written, the empty tail allocates the fresh map, a numeric key is
the reported key type error, and a program with a duplicate key keeps only
the last write. -/
theorem map_form_spec_witness :
    mapPairsLoop 6 [.str "a", .num 1] 0 [] store0 =
      mapPairsLoop 5 [] 0 [("a", .num 1)] store0 ∧
    mapPairsLoop 6 ([] : List Expr) 0 [("a", .num 1)] store0 =
      .ok (.mapV 0, { store0 with maps := [[("a", .num 1)]] }) ∧
    mapPairsLoop 6 [.num 3, .num 1] 0 [] store0 =
      .error (.reported "invalid map key type: expected string, got NUMBER") ∧
    getk (setk [("a", .num 1)] "a" (.num 2)) "a" = some (.num 2) ∧
    runProg 40 [.list [.sym "map", .str "a", .num 1, .str "a", .num 2]] =
      .ok (.mapV 0, ⟨[⟨[], none⟩], [], [[("a", .num 2)]]⟩) :=
  ⟨map_form_spec.2.1 5 (.str "a") (.num 1) [] 0 [] store0 "a" store0 (.num 1) store0 rfl rfl,
   map_form_spec.1 5 0 [("a", .num 1)] store0,
   map_form_spec.2.2.1 5 (.num 3) (.num 1) [] 0 [] store0 (.num 3) store0 rfl
     (by simp [typeTag]) (fun h => Value.noConfusion h),
   map_form_spec.2.2.2.1 [("a", .num 1)] "a" (.num 2),
   rfl⟩

/-- C1: one round of the call trampoline.  Given the positional parameter
binding of the current arguments, the loop builds a fresh activation frame
whose parent is the closure's captured environment and tail-evaluates the
body there; if that yields a RecurMarker carrying new arguments, applying
the function to the old arguments equals continuing the same loop with the
new arguments in their place (the frame is reused iteratively, no recursive
call), and if it yields an ordinary value, that value is the call's result. -/
theorem trampoline_applies_and_rebinds :
    ∀ fuel fEnv ps body args s record,
      mkActivationRecord ps args [] = .ok record →
      ((s.envs ++ [⟨record, some fEnv⟩])[s.envs.length]? =
        some ⟨record, some fEnv⟩) ∧
      (∀ argsNew s2,
        evalInTailPosition fuel body (some s.envs.length)
            { s with envs := s.envs ++ [⟨record, some fEnv⟩] } =
          .ok (.recurV argsNew, s2) →
        trampoline (fuel + 1) fEnv (.list ps) body args s =
          trampoline fuel fEnv (.list ps) body argsNew s2) ∧
      (∀ v s2,
        evalInTailPosition fuel body (some s.envs.length)
            { s with envs := s.envs ++ [⟨record, some fEnv⟩] } = .ok (v, s2) →
        typeTag v ≠ some .recurT → v ≠ .goNil →
        trampoline (fuel + 1) fEnv (.list ps) body args s = .ok (v, s2)) := by
  intro fuel fEnv ps body args s record hrec
  refine ⟨?_, ?_, ?_⟩
  · exact List.getElem?_concat_length s.envs ⟨record, some fEnv⟩
  · intro argsNew s2 heval
    rw [trampoline]
    simp only [hrec, pushFrame]
    rw [heval]
  · intro v s2 heval hv hu
    rw [trampoline]
    simp only [hrec, pushFrame]
    rw [heval]
    cases v <;> simp_all [typeTag]

/-- Witness for C1: applying the identity function to 1 returns 1 through
one trampoline round; a body that recurs with false continues the loop with
the rebound argument list; and a complete program whose function reaches its
result through a `recur` rebinding returns that result. -/
theorem trampoline_applies_and_rebinds_witness :
    trampoline 6 0 (.list [.sym "x"]) (.sym "x") [.num 1] store0 =
      .ok (.num 1, ⟨[⟨[], none⟩, ⟨[("x", .num 1)], some 0⟩], [], []⟩) ∧
    trampoline 11 0 (.list [.sym "x"]) (.list [.sym "recur", .boolE false]) [.num 1] store0 =
      trampoline 10 0 (.list [.sym "x"]) (.list [.sym "recur", .boolE false]) [.bool false]
        ⟨[⟨[], none⟩, ⟨[("x", .num 1)], some 0⟩], [], []⟩ ∧
    runResult 60 [.list [.sym "var", .sym "f",
        .list [.sym "lambda", .list [.sym "b"],
          .list [.sym "if", .sym "b", .list [.sym "recur", .boolE false], .str "done"]]],
      .list [.sym "f", .boolE true]] = .ok (.str "done") :=
  ⟨(trampoline_applies_and_rebinds 5 0 [.sym "x"] (.sym "x") [.num 1] store0
      [("x", .num 1)] rfl).2.2 (.num 1) ⟨[⟨[], none⟩, ⟨[("x", .num 1)], some 0⟩], [], []⟩
      rfl (by simp [typeTag]) (fun h => Value.noConfusion h),
   (trampoline_applies_and_rebinds 10 0 [.sym "x"] (.list [.sym "recur", .boolE false])
      [.num 1] store0 [("x", .num 1)] rfl).2.1 [.bool false]
      ⟨[⟨[], none⟩, ⟨[("x", .num 1)], some 0⟩], [], []⟩ rfl,
   rfl⟩

/-- Helper: taking one past an in-bounds overwrite yields the prefix plus
the written element. -/
theorem take_set_succ {α : Type} :
    ∀ (l : List α) (n : Nat) (x : α), n < l.length →
      (l.set n x).take (n + 1) = l.take n ++ [x]
  | [], n, x, h => absurd h (by simp)
  | a :: tl, 0, x, _ => by simp
  | a :: tl, n + 1, x, h => by
      have := take_set_succ tl n x (by simpa using h)
      simp [List.set, this]

/-- C7 (amended): `vec:push` succeeds on a well-formed slice header, and the
value it returns is a new slice header of length one more whose first
`len + 1` elements are the old contents followed by the pushed element,
while the environments (hence every existing binding, still holding the old
header with the old length) and the map heap are untouched. -/
theorem vec_push_returns_new_reference :
    ∀ s arr len cap x backing,
      s.arrays[arr]? = some backing → backing.length = cap → len ≤ cap →
      ∃ arr1 cap1 s1,
        vectorPush [.vec arr len cap, x] s = .ok (.vec arr1 (len + 1) cap1, s1) ∧
        sliceElems s1 arr1 (len + 1) = sliceElems s arr len ++ [x] ∧
        s1.envs = s.envs ∧ s1.maps = s.maps := by
  intro s arr len cap x backing hb hblen hle
  have harr : arr < s.arrays.length := by
    by_contra hcon
    rw [List.getElem?_eq_none (Nat.le_of_not_lt hcon)] at hb
    cases hb
  have hgetD : s.arrays.getD arr [] = backing := by
    rw [List.getD_eq_getElem?_getD, hb]
    rfl
  by_cases hlt : len < cap
  · refine ⟨arr, cap, arrSet s arr len x, ?_, ?_, rfl, rfl⟩
    · simp [vectorPush, expectArgsN, expectVector, goAppend, hlt]
    · have hlen' : len < backing.length := hblen ▸ hlt
      simp only [sliceElems, arrSet, hgetD]
      rw [List.getD_eq_getElem?_getD,
        List.getElem?_set_self harr, Option.getD_some,
        take_set_succ backing len x hlen']
  · have hcap : len = cap := Nat.le_antisymm hle (Nat.le_of_not_lt hlt)
    have htake : backing.take len = backing := by
      rw [List.take_of_length_le (by omega)]
    have helems : (sliceElems s arr len).length = len := by
      simp only [sliceElems]
      rw [hgetD, htake, hblen, hcap]
    refine ⟨s.arrays.length, if cap = 0 then 1 else 2 * cap,
      { s with arrays := s.arrays ++
        [(sliceElems s arr len ++ [x]) ++
          List.replicate ((if cap = 0 then 1 else 2 * cap) -
            (sliceElems s arr len ++ [x]).length) Value.goNil] }, ?_, ?_, rfl, rfl⟩
    · simp [vectorPush, expectArgsN, expectVector, goAppend, hlt, arrAlloc]
    · simp only [sliceElems]
      rw [List.getD_eq_getElem?_getD, List.getElem?_concat_length, Option.getD_some]
      rw [List.take_left' (by rw [List.length_append, hgetD, htake, hblen, hcap]; rfl)]

/-- Witness for C7: pushing 4 onto the full three-element vector produced by
`(vector 1 2 3)` yields a header of length 4 over the old contents plus 4
with environments untouched; the program reading through the returned
reference w yields 4, while the global binding v still holds the old header
of length 3. -/
theorem vec_push_returns_new_reference_witness :
    (∃ arr1 cap1 s1,
      vectorPush [.vec 0 3 3, .num 4] ⟨[⟨[], none⟩], [[.num 1, .num 2, .num 3]], []⟩ =
        .ok (.vec arr1 (3 + 1) cap1, s1) ∧
      sliceElems s1 arr1 (3 + 1) =
        sliceElems ⟨[⟨[], none⟩], [[.num 1, .num 2, .num 3]], []⟩ 0 3 ++ [.num 4] ∧
      s1.envs = [⟨[], none⟩] ∧ s1.maps = []) ∧
    runResult 80 progVecRebind = .ok (.num 4) ∧
    runProg 80 progVecRebind = .ok (.num 4, vecRebindFinal) ∧
    getk (vecRebindFinal.envs.getD 0 ⟨[], none⟩).record "v" = some (.vec 0 3 3) :=
  ⟨vec_push_returns_new_reference ⟨[⟨[], none⟩], [[.num 1, .num 2, .num 3]], []⟩
      0 3 3 (.num 4) [.num 1, .num 2, .num 3] rfl rfl (Nat.le_refl 3),
   rfl, rfl, rfl⟩

/-- Helper: the validation loop of the `+` builtin rejects exactly the first
operand that is neither NUMBER nor STRING, with its type in the message. -/
theorem addscan_first_offender :
    ∀ (args : List Value) b,
      args.find? (fun a => !(isNumOrStr a)) = some b →
      addscan args = .error ("`+` invalid type " ++ tagName b) := by
  intro args
  induction args with
  | nil => intro b h; simp [List.find?] at h
  | cons a rest ih =>
    intro b h
    by_cases ha : isNumOrStr a
    · rw [List.find?_cons_of_neg] at h
      · rw [addscan, ih b h]
        simp [ha]
      · simp [ha]
    · rw [List.find?_cons_of_pos] at h
      · cases h
        rw [addscan]
        simp [ha]
      · simp [ha]

/-- Helper: on operands that are all NUMBER or STRING the validation loop
succeeds and reports whether any STRING operand occurs. -/
theorem addscan_all_valid :
    ∀ (args : List Value), (∀ a ∈ args, isNumOrStr a) →
      addscan args = .ok (args.any fun a => decide (typeTag a = some .stringT)) := by
  intro args
  induction args with
  | nil => intro _; rfl
  | cons a rest ih =>
    intro hall
    have ha : isNumOrStr a := hall a (List.mem_cons_self a rest)
    rw [addscan, ih (fun b hb => hall b (List.mem_cons_of_mem a hb))]
    simp [ha, Bool.or_comm]

/-- Helper: the running total of the `+` builtin is the sum of the numeric
payloads. -/
theorem foldl_numPayload :
    ∀ (l : List Value) (init : Rat),
      List.foldl (fun t a => t + numPayload a) init l = init + (l.map numPayload).sum := by
  intro l
  induction l with
  | nil => intro init; simp
  | cons a rest ih => intro init; simp [ih, add_assoc]

/-- C10: the `+` builtin on at least two operands — the first operand that
is neither NUMBER nor STRING is a type error naming its type; when every
operand is NUMBER or STRING and at least one STRING occurs, the result is
the concatenation of every operand's canonical string rendering in
left-to-right order; when all operands are NUMBER, the result is their
numeric sum. -/
theorem plus_overload_spec :
    (∀ args b, 2 ≤ args.length →
      args.find? (fun a => !(isNumOrStr a)) = some b →
      add args = .error ("`+` invalid type " ++ tagName b)) ∧
    (∀ args, 2 ≤ args.length → (∀ a ∈ args, isNumOrStr a) →
      (∃ a ∈ args, typeTag a = some .stringT) →
      add args = .ok (.str (String.join (args.map atomString)))) ∧
    (∀ args, 2 ≤ args.length → (∀ a ∈ args, typeTag a = some .numberT) →
      add args = .ok (.num ((args.map numPayload).sum))) := by
  refine ⟨?_, ?_, ?_⟩
  · intro args b h2 hf
    simp [add, Nat.not_lt.mpr h2, addscan_first_offender args b hf]
  · intro args h2 hall hex
    have hany : (args.any fun a => decide (typeTag a = some .stringT)) = true := by
      simp only [List.any_eq_true, decide_eq_true_eq]
      exact hex
    simp [add, Nat.not_lt.mpr h2, addscan_all_valid args hall, hany]
  · intro args h2 hall
    have hall' : ∀ a ∈ args, isNumOrStr a := by
      intro a ha
      simp [isNumOrStr, hall a ha]
    have hany : (args.any fun a => decide (typeTag a = some .stringT)) = false := by
      simp only [List.any_eq_false, decide_eq_true_eq]
      intro a ha
      rw [hall a ha]
      simp
    simp [add, Nat.not_lt.mpr h2, addscan_all_valid args hall', hany, foldl_numPayload]

/-- Witness for C10: mixed operands concatenate to "a1b" (the number 1
renders as "1"), all-number operands sum to 6, a NIL operand is the type
error naming NIL, and the mixed-operand result flows through the
interpreter's symbol-dispatched `+` native. -/
theorem plus_overload_spec_witness :
    add [.str "a", .num 1, .str "b"] = .ok (.str "a1b") ∧
    add [.num 1, .num 2, .num 3] = .ok (.num ((1 : Rat) + 2 + 3)) ∧
    ((1 : Rat) + 2 + 3) = 6 ∧
    add [.num 1, .nil] = .error "`+` invalid type NIL" ∧
    runResult 30 progPlusMixed = .ok (.str "a1b") :=
  ⟨(plus_overload_spec.2.1 [.str "a", .num 1, .str "b"] (by decide)
      (by decide) ⟨.str "a", List.mem_cons_self _ _, rfl⟩).trans (by rfl),
   (plus_overload_spec.2.2 [.num 1, .num 2, .num 3] (by decide) (by decide)).trans
     (by norm_num [numPayload]),
   by norm_num,
   (plus_overload_spec.1 [.num 1, .nil] .nil (by decide) rfl).trans rfl,
   rfl⟩

end Tatu
